import Mathlib

/-!
# Verification of the plotdevice effects layer

Shallow embedding of `src/plotdevice/gfx/effects.py` and
`src/plotdevice/gfx/variables.py`.  Numbers are modelled as rationals,
Python dicts over the four effect kinds as functions `Kind → Option FxVal`,
and the Core Graphics / Core Image surface calls as event traces that the
drawing code would emit.  Fallible constructors are modelled with `Except`.
-/

namespace PlotDevice

/-- The four effect kinds recognized by `Effect.kwargs` in effects.py. -/
inductive Kind where
  | blend | alpha | shadow | raster
  deriving DecidableEq, Fintype

/-- Modelled from the spec: the Color collaborator (§6, `colors.py` is not
under `src/`): an RGBA value with components in [0,1] exposed as plain
accessors. -/
structure Color where
  r : ℚ
  g : ℚ
  b : ℚ
  a : ℚ
  deriving DecidableEq

/-- Hex-digit value of a character (0 for non-hex input). -/
def hexDigit (c : Char) : ℕ :=
  if '0' ≤ c ∧ c ≤ '9' then c.toNat - '0'.toNat
  else if 'a' ≤ c ∧ c ≤ 'f' then c.toNat - 'a'.toNat + 10
  else if 'A' ≤ c ∧ c ≤ 'F' then c.toNat - 'A'.toNat + 10
  else 0

/-- A two-digit hex byte scaled into [0,1]. -/
def hexByte (c1 c2 : Char) : ℚ := ((hexDigit c1 * 16 + hexDigit c2 : ℕ) : ℚ) / 255

/-- Modelled from the spec: parsing of hex color strings by the Color
collaborator (§6): `#rgb`, `#rrggbb` parse with alpha 1, `#rrggbbaa`
carries an explicit alpha byte. -/
def parseHex (s : String) : Color :=
  match s.data with
  | ['#', r, g, b] =>
      ⟨((hexDigit r * 17 : ℕ) : ℚ) / 255, ((hexDigit g * 17 : ℕ) : ℚ) / 255,
       ((hexDigit b * 17 : ℕ) : ℚ) / 255, 1⟩
  | ['#', r1, r2, g1, g2, b1, b2] =>
      ⟨hexByte r1 r2, hexByte g1 g2, hexByte b1 b2, 1⟩
  | ['#', r1, r2, g1, g2, b1, b2, a1, a2] =>
      ⟨hexByte r1 r2, hexByte g1 g2, hexByte b1 b2, hexByte a1 a2⟩
  | _ => ⟨0, 0, 0, 1⟩

/-- A color spec as accepted by `Color(...)`: a bare hex string, a
(hex, alpha) tuple, or an existing Color value. -/
inductive ColorSpec where
  | hex (s : String)
  | hexAlpha (s : String) (a : ℚ)
  | colorVal (c : Color)

/-- Modelled from the spec: `Color(spec)` dispatch (§6). -/
def Color.ofSpec : ColorSpec → Color
  | .hex s => parseHex s
  | .hexAlpha s a => { parseHex s with a := a }
  | .colorVal c => c

/-- The state held by the wrapped `NSShadow` in `Shadow`: color, blur
radius, and the offset *as stored* (the setter negates y on the way in,
`Shadow.offset`'s getter re-negates it on the way out). -/
structure ShadowData where
  color : Color
  blur : ℚ
  nsOffset : ℚ × ℚ
  deriving DecidableEq

/-- The `offset` argument: a bare number or an (x, y) pair
(`Shadow.__init__` turns a scalar into a pair by duplication). -/
inductive OffsetSpec where
  | scalar (v : ℚ)
  | pair (x y : ℚ)

namespace Shadow

/-- The `Shadow.offset` setter: a scalar is used for both axes, and the
stored y component is negated (effects.py line 396). -/
def offsetSet : OffsetSpec → ℚ × ℚ
  | .scalar v => (v, -v)
  | .pair x y => (x, -y)

/-- The `Shadow.offset` getter: reports `(x, -y)` of the stored offset
(effects.py line 388). -/
def offsetGet (sd : ShadowData) : ℚ × ℚ := (sd.nsOffset.1, -sd.nsOffset.2)

/-- `Shadow.__init__` (non-copy branch, effects.py lines 339-351):
color defaults to `('#000', .75)`; blur defaults to 10 when the color
has nonzero alpha and 0 otherwise; offset defaults to `blur/2` in both
axes and is stored through the y-negating setter. -/
def init (color? : Option ColorSpec) (blur? : Option ℚ) (offset? : Option OffsetSpec) :
    ShadowData :=
  let c := Color.ofSpec (color?.getD (.hexAlpha "#000" (3/4)))
  let blur := blur?.getD (if c.a ≠ 0 then 10 else 0)
  let off := offset?.getD (.scalar (blur / 2))
  { color := c, blur := blur, nsOffset := offsetSet off }

end Shadow

/-- C8: `Shadow(color='#000000ff')` (full-alpha black) yields blur 10;
`Shadow(color=('#000000', 0))` (zero-alpha) yields blur 0; `Shadow(blur=20)`
with unspecified offset stores `(10, -10)` and reports `(10, 10)` through
the offset accessor (blur/2 in both axes, negated-y round trip). -/
theorem shadow_defaults :
    (Shadow.init (some (.hex "#000000ff")) none none).blur = 10 ∧
    (Shadow.init (some (.hexAlpha "#000000" 0)) none none).blur = 0 ∧
    (Shadow.init none (some 20) none).nsOffset = (10, -10) ∧
    Shadow.offsetGet (Shadow.init none (some 20) none) = (10, 10) := by
  have hf : hexDigit 'f' = 15 := by decide
  have h0 : hexDigit '0' = 0 := by decide
  refine ⟨?_, ?_, ?_, ?_⟩ <;>
    norm_num [Shadow.init, Shadow.offsetGet, Shadow.offsetSet, Color.ofSpec,
      parseHex, hexByte, hf, h0]

/-- A value stored in an `Effect._fx` dict.  `vNone` is a stored Python
`None` (which `_validate` passes through unchanged). -/
inductive FxVal where
  | vNone
  | vAlpha (a : ℚ)
  | vBlend (s : String)
  | vShadow (sd : ShadowData)
  | vRaster (b : Bool)
  deriving DecidableEq

/-- The keys of the `_BLEND` mode dict in effects.py. -/
def BLEND_KEYS : List String :=
  ["normal", "clear", "copy",
   "multiply", "screen", "overlay", "darken", "lighten",
   "colordodge", "colorburn", "softlight", "hardlight",
   "difference", "exclusion",
   "hue", "saturation", "color", "luminosity",
   "sourcein", "sourceout", "sourceatop",
   "destinationover", "destinationin", "destinationout", "destinationatop",
   "xor", "plusdarker", "pluslighter"]

/-- `re.sub(r'[_\- ]', '', val).lower()` from `Effect._validate`. -/
def normalizeBlend (s : String) : String :=
  String.mk ((s.data.filter (fun c => !(c == '_' || c == '-' || c == ' '))).map Char.toLower)

/-- Python truthiness of a stored value, used by `_validate`'s raster
branch (`bool(val)`). -/
def truthy : FxVal → Bool
  | .vNone => false
  | .vAlpha a => a ≠ 0
  | .vBlend s => s ≠ ""
  | .vShadow _ => true
  | .vRaster b => b

/-- Validation errors (`DeviceError` messages raised by `Effect._validate`). -/
inductive FxErr where
  | invalidAlpha
  | invalidBlend
  | invalidShadowArgs
  deriving DecidableEq

/-- `Effect._validate` (effects.py lines 242-273): `None` short-circuits
and is returned as-is; alpha must be a number in [0,1]; blend names are
normalized and checked against `_BLEND`; a Shadow value is copied (value
identity here); raster is coerced with `bool()`.  A kind-mismatched value
(e.g. a non-number for alpha) fails the `numlike`/regex step and raises. -/
def validateFx : Kind → FxVal → Except FxErr FxVal
  | _, .vNone => .ok .vNone
  | .alpha, .vAlpha a =>
      if 0 ≤ a ∧ a ≤ 1 then .ok (.vAlpha a) else .error .invalidAlpha
  | .alpha, _ => .error .invalidAlpha
  | .blend, .vBlend s =>
      let s' := normalizeBlend s
      if s' ∈ BLEND_KEYS then .ok (.vBlend s') else .error .invalidBlend
  | .blend, _ => .error .invalidBlend
  | .shadow, .vShadow sd => .ok (.vShadow sd)
  | .shadow, _ => .error .invalidShadowArgs
  | .raster, v => .ok (.vRaster (truthy v))

/-- An `Effect._fx` settings dict: a sparse map over the four kinds. -/
abbrev Fx := Kind → Option FxVal

def Fx.empty : Fx := fun _ => none

def Fx.set (f : Fx) (k : Kind) (v : FxVal) : Fx :=
  fun k' => if k' = k then some v else f k'

def Fx.pop (f : Fx) (k : Kind) : Fx :=
  fun k' => if k' = k then none else f k'

/-- `not self._fx`: the dict is empty. -/
def Fx.isEmpty (f : Fx) : Bool :=
  (f .blend).isNone && (f .alpha).isNone && (f .shadow).isNone && (f .raster).isNone

namespace Effect

/-- `Effect.__init__` (effects.py lines 110-117, without the `rollback`
kwarg): validate each keyword in order and store the results; the first
validation failure raises and no Effect is produced. -/
def initFx (kwargs : List (Kind × FxVal)) : Except FxErr Fx :=
  kwargs.foldlM (fun f kv => do
    let v ← validateFx kv.1 kv.2
    pure (f.set kv.1 v)) Fx.empty

/-- The `Effect.alpha` property setter (effects.py lines 279-284):
assigning `None` removes the key, otherwise the value is validated and
stored. -/
def alphaSet (f : Fx) (a : Option ℚ) : Except FxErr Fx :=
  match a with
  | none => .ok (f.pop .alpha)
  | some v => do
      let v' ← validateFx .alpha (.vAlpha v)
      pure (f.set .alpha v')

end Effect

/-- The two transparency layers `Effect.applied` can open via
`_cg_layer()`: the shared blend/alpha layer and the nested shadow layer. -/
inductive GroupKind where
  | blendAlphaG
  | shadowG
  deriving DecidableEq

/-- Graphics-surface events emitted while `Effect.applied` runs: blend /
alpha / shadow state changes, transparency-layer opens and closes, the
raster bitmap-context switch, and the drawing of the scope body. -/
inductive Ev where
  | setBlendEv (v : FxVal)
  | setAlphaEv (v : FxVal)
  | setShadowEv (v : FxVal)
  | openG (g : GroupKind)
  | closeG (g : GroupKind)
  | rasterSet
  | rasterReset
  | draw
  deriving DecidableEq

/-- `Effect.apply_blend`: sets the blend mode iff the key is present. -/
def applyBlend (f : Fx) : List Ev × Bool :=
  match f .blend with
  | some v => ([.setBlendEv v], true)
  | none => ([], false)

/-- `Effect.apply_alpha`: calls `CGContextSetAlpha` with the stored value
(possibly `None`) iff the key is present. -/
def applyAlpha (f : Fx) : List Ev × Bool :=
  match f .alpha with
  | some v => ([.setAlphaEv v], true)
  | none => ([], false)

/-- `Effect.apply_shadow`: sets an `NSShadow` iff the key is present (a
stored `None` is first replaced by `Shadow(None)`; the event records the
stored setting, which is all the group accounting depends on). -/
def applyShadow (f : Fx) : List Ev × Bool :=
  match f .shadow with
  | some v => ([.setShadowEv v], true)
  | none => ([], false)

/-- `Effect.apply_raster` returns True only when the stored value is the
literal `True`. -/
def rasterApplied (f : Fx) : Bool := f .raster == some (.vRaster true)

/-- `Effect.applied` (effects.py lines 199-235) as the event trace it
produces.  With no settings it is a pass-through; otherwise blend/alpha
are applied and share one transparency layer, shadow gets its own nested
layer, raster gets an offscreen context, the body draws innermost, and
the `ExitStack` closes everything in reverse (LIFO) order. -/
def appliedTrace (f : Fx) : List Ev :=
  if f.isEmpty then [.draw]
  else
    let ba := (applyBlend f).1 ++ (applyAlpha f).1
    let baApplied := (applyBlend f).2 || (applyAlpha f).2
    (ba ++ (if baApplied then [Ev.openG .blendAlphaG] else [])
        ++ (applyShadow f).1
        ++ (if (applyShadow f).2 then [Ev.openG .shadowG] else [])
        ++ (if rasterApplied f then [Ev.rasterSet] else [])
        ++ [Ev.draw]
        ++ (if rasterApplied f then [Ev.rasterReset] else [])
        ++ (if (applyShadow f).2 then [Ev.closeG .shadowG] else [])
        ++ (if baApplied then [Ev.closeG .blendAlphaG] else []))

/-- C9: `Effect(alpha=x)` for a numeric `x` succeeds iff `0 ≤ x ≤ 1`; in
particular `alpha = -0.01` and `alpha = 1.01` raise `DeviceError` while
`alpha = 0` and `alpha = 1` succeed.  Construction is pure: on failure no
Effect is produced and no other state is touched. -/
theorem effect_alpha_bounds :
    (∀ x : ℚ, (Effect.initFx [(.alpha, .vAlpha x)]).isOk ↔ (0 ≤ x ∧ x ≤ 1)) ∧
    (Effect.initFx [(.alpha, .vAlpha (-1/100))]).isOk = false ∧
    (Effect.initFx [(.alpha, .vAlpha (101/100))]).isOk = false ∧
    (Effect.initFx [(.alpha, .vAlpha 0)]).isOk = true ∧
    (Effect.initFx [(.alpha, .vAlpha 1)]).isOk = true := by
  have h : ∀ x : ℚ, (Effect.initFx [(.alpha, .vAlpha x)]).isOk ↔ (0 ≤ x ∧ x ≤ 1) := by
    intro x
    simp only [Effect.initFx, List.foldlM, validateFx]
    split
    · simp_all [Except.isOk, Except.toBool, bind, Except.bind, pure, Except.pure]
    · simp_all [Except.isOk, Except.toBool, bind, Except.bind]
  refine ⟨h, ?_, ?_, ?_, ?_⟩
  · exact Bool.eq_false_iff.mpr fun hc => by have := (h _).mp hc; norm_num at this
  · exact Bool.eq_false_iff.mpr fun hc => by have := (h _).mp hc; norm_num at this
  · exact (h 0).mpr (by norm_num)
  · exact (h 1).mpr (by norm_num)

/-- C2: in `Effect.applied()`: with both blend and shadow set, exactly the
shared blend/alpha transparency layer and then the nested shadow layer
open (2 groups, in that order) and they close in exact reverse (LIFO)
order around the drawing; with only alpha set exactly 1 group opens; with
no settings no group opens and `applied()` is a pass-through. -/
theorem effect_applied_group_order :
    (∀ (bs : String) (sd : ShadowData),
      appliedTrace ((Fx.empty.set .blend (.vBlend bs)).set .shadow (.vShadow sd)) =
        [.setBlendEv (.vBlend bs), .openG .blendAlphaG,
         .setShadowEv (.vShadow sd), .openG .shadowG,
         .draw,
         .closeG .shadowG, .closeG .blendAlphaG]) ∧
    (∀ a : ℚ,
      appliedTrace (Fx.empty.set .alpha (.vAlpha a)) =
        [.setAlphaEv (.vAlpha a), .openG .blendAlphaG, .draw, .closeG .blendAlphaG]) ∧
    appliedTrace Fx.empty = [.draw] ∧
    (∀ (bs : String) (sd : ShadowData),
      ((appliedTrace ((Fx.empty.set .blend (.vBlend bs)).set .shadow (.vShadow sd))).countP
        (fun e => match e with | .openG _ => true | _ => false)) = 2) ∧
    (∀ a : ℚ,
      ((appliedTrace (Fx.empty.set .alpha (.vAlpha a))).countP
        (fun e => match e with | .openG _ => true | _ => false)) = 1) := by
  refine ⟨fun bs sd => rfl, fun a => rfl, rfl, fun bs sd => rfl, fun a => rfl⟩

/-- C10: `Effect(alpha=None)` does not raise: `_validate` short-circuits
on `None` and the settings map stores `None` under the alpha key, so the
kind counts as set — `applied()` opens the blend/alpha transparency layer
and `apply_alpha` passes the stored `None` to the surface.  By contrast
the `alpha` property setter removes the key entirely when assigned
`None`. -/
theorem effect_alpha_none_stored_vs_setter_pop :
    Effect.initFx [(.alpha, .vNone)] = .ok (Fx.empty.set .alpha .vNone) ∧
    (Fx.empty.set .alpha .vNone) .alpha = some .vNone ∧
    appliedTrace (Fx.empty.set .alpha .vNone) =
      [.setAlphaEv .vNone, .openG .blendAlphaG, .draw, .closeG .blendAlphaG] ∧
    Effect.alphaSet (Fx.empty.set .alpha .vNone) none = .ok Fx.empty := by
  refine ⟨rfl, rfl, rfl, ?_⟩
  have : (Fx.empty.set .alpha .vNone).pop .alpha = Fx.empty := by
    funext k; cases k <;> rfl
  simp [Effect.alphaSet, this]

/-! ## Scoped `with Effect(...)` state rollback (`__enter__` / `__exit__`) -/

/-- A canonical iteration order for the four kinds (dict iteration in
`__exit__`'s restore loop; the kinds are distinct so the order cannot
matter). -/
def kindList : List Kind := [.blend, .alpha, .shadow, .raster]

/-- `setattr(_ctx._effects, eff, val)`: each per-kind property setter pops
the key when assigned `None` and otherwise stores the validated value
(effects.py lines 279-317).  A validation failure would raise in Python;
it is modelled as leaving the key unchanged and is unreachable for the
validated ambient states quantified over below. -/
def setattrFx (amb : Fx) (k : Kind) (v : FxVal) : Fx :=
  if v = .vNone then amb.pop k
  else
    match validateFx k v with
    | .ok v' => amb.set k v'
    | .error _ => amb

/-- The rollback snapshot taken by `Effect.__enter__` (line 126): the
ambient `_fx` restricted to the kinds this Effect sets (an entry exists
iff the kind is in both dicts). -/
def rollbackOf (fx amb : Fx) : Fx :=
  fun k => if (fx k).isSome then amb k else none

/-- The ambient-state update of `Effect.__enter__` (lines 133-134): every
kind this Effect sets is popped from the ambient `_fx`. -/
def enterAmb (fx amb : Fx) : Fx :=
  fun k => if (fx k).isSome then none else amb k

/-- The restore loop of `Effect.__exit__` (lines 141-142): `setattr` the
ambient effects object with every rollback entry. -/
def exitAmb (rb amb : Fx) : Fx :=
  kindList.foldl (fun a k => match rb k with | some v => setattrFx a k v | none => a) amb

mutual
/-- A nested drawing scope: either a body statement that raises, or a
`with Effect(...)` block around a body. -/
inductive STree : Type where
  | raiseErr : STree
  | scope (fx : Fx) (body : SList) : STree
/-- A sequence of statements inside a scope body. -/
inductive SList : Type where
  | snil : SList
  | scons (t : STree) (ts : SList) : SList
end

mutual
/-- Run a scope against the ambient `_ctx._effects._fx` state, returning
the final ambient state and whether an exception is propagating.  The
`with` statement guarantees `__exit__` runs on every exit path, so
`exitAmb` is applied unconditionally; an exception propagating out of a
body aborts the remaining statements of that body (see `runSList`). -/
def runSTree : STree → Fx → Fx × Bool
  | .raiseErr, a => (a, true)
  | .scope fx body, a =>
      let rb := rollbackOf fx a
      let p := runSList body (enterAmb fx a)
      (exitAmb rb p.1, p.2)
/-- Run the statements of a body in order, stopping at the first
propagating exception. -/
def runSList : SList → Fx → Fx × Bool
  | .snil, a => (a, false)
  | .scons t ts, a =>
      let p := runSTree t a
      if p.2 then p else runSList ts p.1
end

/-- A stored value that restores faithfully through `setattr`: it is not
a stored Python `None`, and it is a fixed point of `_validate` for its
key.  Every value that per-kind setters actually store has this shape. -/
def properValB (k : Kind) (v : FxVal) : Bool :=
  !(v == .vNone) &&
    (match validateFx k v with
     | .ok v' => v == v'
     | .error _ => false)

/-- An ambient `_ctx._effects._fx` state in which every stored value is
proper — the invariant of states reachable through the per-kind property
setters. -/
def Proper (amb : Fx) : Prop :=
  ∀ k v, amb k = some v → properValB k v = true

theorem properValB_spec {k : Kind} {v : FxVal} (h : properValB k v = true) :
    v ≠ .vNone ∧ validateFx k v = .ok v := by
  unfold properValB at h
  rcases hv : validateFx k v with v' | e <;> rw [hv] at h <;> simp at h
  · exact ⟨h.1, by rw [h.2]⟩

theorem proper_enterAmb {amb : Fx} (fx : Fx) (h : Proper amb) :
    Proper (enterAmb fx amb) := by
  intro k v hk
  unfold enterAmb at hk
  by_cases hs : (fx k).isSome
  · simp [hs] at hk
  · simp [hs] at hk
    exact h k v hk

/-- A single restore step for one rollback entry. -/
def exitStep (rb : Fx) (a : Fx) (k : Kind) : Fx :=
  match rb k with
  | some v => setattrFx a k v
  | none => a

theorem setattrFx_other {a : Fx} {k k' : Kind} (v : FxVal) (h : k' ≠ k) :
    setattrFx a k v k' = a k' := by
  by_cases hn : v = .vNone
  · simp [setattrFx, hn, Fx.pop, h]
  · rcases hv : validateFx k v with v' | e <;>
      simp [setattrFx, hn, hv, Fx.set, h]

theorem exitStep_other {rb a : Fx} {k k' : Kind} (h : k' ≠ k) :
    exitStep rb a k k' = a k' := by
  unfold exitStep
  rcases rb k with _ | v
  · rfl
  · exact setattrFx_other v h

/-- What `setattr` leaves at its own key. -/
def setattrAt (prev : Option FxVal) (k : Kind) (v : FxVal) : Option FxVal :=
  if v = .vNone then none
  else
    match validateFx k v with
    | .ok v' => some v'
    | .error _ => prev

theorem setattrFx_self (a : Fx) (k : Kind) (v : FxVal) :
    setattrFx a k v k = setattrAt (a k) k v := by
  by_cases hn : v = .vNone
  · simp [setattrFx, setattrAt, hn, Fx.pop]
  · rcases hv : validateFx k v with v' | e <;>
      simp [setattrFx, setattrAt, hn, hv, Fx.set]

theorem exitStep_self (rb a : Fx) (k : Kind) :
    exitStep rb a k k =
      match rb k with
      | some v => setattrAt (a k) k v
      | none => a k := by
  unfold exitStep
  rcases rb k with _ | v
  · rfl
  · exact setattrFx_self a k v

theorem exitAmb_eq_steps (rb amb : Fx) :
    exitAmb rb amb =
      exitStep rb (exitStep rb (exitStep rb (exitStep rb amb .blend) .alpha) .shadow) .raster := by
  unfold exitAmb kindList exitStep
  rfl

theorem exitAmb_apply (rb amb : Fx) (k : Kind) :
    exitAmb rb amb k =
      match rb k with
      | some v => setattrAt (amb k) k v
      | none => amb k := by
  rw [exitAmb_eq_steps]
  cases k
  case blend =>
    rw [exitStep_other (by decide), exitStep_other (by decide), exitStep_other (by decide)]
    exact exitStep_self rb amb .blend
  case alpha =>
    rw [exitStep_other (by decide), exitStep_other (by decide)]
    rw [show exitStep rb (exitStep rb amb .blend) .alpha .alpha =
          match rb .alpha with
          | some v => setattrAt (exitStep rb amb .blend .alpha) .alpha v
          | none => exitStep rb amb .blend .alpha from exitStep_self ..]
    rw [exitStep_other (by decide)]
  case shadow =>
    rw [exitStep_other (by decide)]
    rw [show exitStep rb (exitStep rb (exitStep rb amb .blend) .alpha) .shadow .shadow =
          match rb .shadow with
          | some v => setattrAt (exitStep rb (exitStep rb amb .blend) .alpha .shadow) .shadow v
          | none => exitStep rb (exitStep rb amb .blend) .alpha .shadow from exitStep_self ..]
    rw [exitStep_other (by decide), exitStep_other (by decide)]
  case raster =>
    rw [show exitStep rb (exitStep rb (exitStep rb (exitStep rb amb .blend) .alpha) .shadow) .raster .raster =
          match rb .raster with
          | some v => setattrAt (exitStep rb (exitStep rb (exitStep rb amb .blend) .alpha) .shadow .raster) .raster v
          | none => exitStep rb (exitStep rb (exitStep rb amb .blend) .alpha) .shadow .raster from exitStep_self ..]
    rw [exitStep_other (by decide), exitStep_other (by decide), exitStep_other (by decide)]

/-- `__exit__` undoes `__enter__` exactly, for any ambient state whose
stored values are proper. -/
theorem exit_enter_restore (fx : Fx) {amb : Fx} (h : Proper amb) :
    exitAmb (rollbackOf fx amb) (enterAmb fx amb) = amb := by
  funext k
  rw [exitAmb_apply]
  unfold rollbackOf enterAmb
  by_cases hs : (fx k).isSome
  · simp only [hs, if_true]
    rcases ha : amb k with _ | v
    · rfl
    · have hp := properValB_spec (h k v ha)
      simp [setattrAt, hp.1, hp.2]
  · simp only [Bool.not_eq_true] at hs
    simp [hs]

mutual
theorem runSTree_roundtrip : ∀ (t : STree) (a : Fx), Proper a → (runSTree t a).1 = a
  | .raiseErr, _, _ => rfl
  | .scope fx body, a, hp => by
      have hb := runSList_roundtrip body (enterAmb fx a) (proper_enterAmb fx hp)
      show (let rb := rollbackOf fx a
            let p := runSList body (enterAmb fx a)
            (exitAmb rb p.1, p.2)).1 = a
      simp only []
      rw [hb]
      exact exit_enter_restore fx hp
theorem runSList_roundtrip : ∀ (l : SList) (a : Fx), Proper a → (runSList l a).1 = a
  | .snil, _, _ => rfl
  | .scons t ts, a, hp => by
      have ht := runSTree_roundtrip t a hp
      show (let p := runSTree t a
            if p.2 then p else runSList ts p.1).1 = a
      simp only []
      by_cases hc : (runSTree t a).2 = true
      · simp [hc, ht]
      · simp only [Bool.not_eq_true] at hc
        rw [hc, if_neg (by simp), ht]
        exact runSList_roundtrip ts a hp
end

/-- C1: for any sequence of nested Effect scopes (arbitrary overlapping
kinds, arbitrary nesting, bodies that may raise and propagate), after the
outermost scope's `__exit__` the ambient `_ctx._effects._fx` equals its
value before the outermost `__enter__` — restoration is unconditional,
for every ambient state whose stored values are proper (the invariant of
states reachable through the per-kind setters). -/
theorem effect_scope_roundtrip (fx : Fx) (body : SList) (amb : Fx) (h : Proper amb) :
    (runSTree (.scope fx body) amb).1 = amb :=
  runSTree_roundtrip (.scope fx body) amb h

/-- A concrete ambient state: a shadow and an active rasterization. -/
def ambW : Fx := fun k =>
  match k with
  | .shadow => some (.vShadow ⟨⟨0, 0, 0, 1⟩, 10, (5, -5)⟩)
  | .raster => some (.vRaster true)
  | _ => none

/-- A concrete nested scope stack: the outer scope sets shadow and alpha,
the inner scope overlaps on shadow and additionally sets raster, and the
innermost body raises. -/
def treeW : STree :=
  .scope ((Fx.empty.set .shadow .vNone).set .alpha (.vAlpha (1/2)))
    (.scons
      (.scope (Fx.empty.set .shadow (.vShadow ⟨⟨0, 0, 0, 1⟩, 0, (0, 0)⟩))
        (.scons (.scope (Fx.empty.set .raster (.vRaster false)) (.scons .raiseErr .snil))
          .snil))
      .snil)

theorem effect_scope_roundtrip_witness :
    Proper ambW ∧ (runSTree treeW ambW).1 = ambW := by
  have hp : Proper ambW := by
    intro k v hk
    cases k <;> simp only [ambW] at hk <;> cases hk <;> rfl
  exact ⟨hp, effect_scope_roundtrip _ _ _ hp⟩

/-! ## `Effect.copy()` and object identity

`Effect.copy()` does `new_effect._fx = self._fx.copy()`: a *shallow* dict
copy.  The keys map to the same Python objects, so a mutable `Shadow`
value is shared between the original and the copy.  To express aliasing,
this model makes Shadow values heap references: the settings dict stores
an address into a heap of `ShadowData` cells. -/

/-- A stored `_fx` value with reference semantics for the mutable Shadow
sub-object. -/
inductive RVal where
  | rNone
  | rAlpha (a : ℚ)
  | rBlend (s : String)
  | rShadowRef (addr : ℕ)
  | rRaster (b : Bool)
  deriving DecidableEq

/-- A settings dict with reference-valued shadow entries. -/
abbrev RFx := Kind → Option RVal

/-- An `Effect` instance as a holder of its `_fx` dict. -/
structure EffectObj where
  fx : RFx

/-- The heap of live `Shadow` objects (`NSShadow` state), addressed by
index. -/
abbrev Heap := List ShadowData

/-- `Effect.copy()` (effects.py lines 237-240): a fresh Effect whose
`_fx` is `self._fx.copy()` — the same key/value pairs, the values (and in
particular any Shadow reference) shared, not cloned. -/
def Effect.copyObj (e : EffectObj) : EffectObj := ⟨e.fx⟩

/-- In-place mutation of a Shadow object's blur through its reference
(the `Shadow.blur` setter, effects.py line 382). -/
def Heap.setBlur (h : Heap) (addr : ℕ) (v : ℚ) : Heap :=
  match h[addr]? with
  | some sd => h.set addr { sd with blur := v }
  | none => h

/-- Read an Effect's shadow blur through its stored reference. -/
def EffectObj.shadowBlur (h : Heap) (e : EffectObj) : Option ℚ :=
  match e.fx .shadow with
  | some (.rShadowRef addr) => h[addr]?.map (fun sd => sd.blur)
  | _ => none

/-- A concrete Effect whose shadow lives at heap address 0. -/
def effW : EffectObj :=
  ⟨fun k => match k with | .shadow => some (.rShadowRef 0) | _ => none⟩

/-- A one-cell heap holding that Shadow (blur 10). -/
def heapW : Heap := [⟨⟨0, 0, 0, 1⟩, 10, (5, -5)⟩]

/-- C3 counterexample: `e.copy()` shares the Shadow sub-object.  For the
concrete Effect `effW` with its Shadow at address 0 (blur 10), the copy's
shadow entry is the same reference, and mutating the copy's Shadow blur
to 99 changes the original's observed Shadow blur from 10 to 99 —
refuting "mutating the copy's Shadow never changes e's Shadow". -/
theorem effect_copy_shares_shadow_cex :
    EffectObj.shadowBlur heapW effW = some 10 ∧
    (Effect.copyObj effW).fx .shadow = some (.rShadowRef 0) ∧
    EffectObj.shadowBlur (Heap.setBlur heapW 0 99) effW = some 99 := by
  refine ⟨rfl, rfl, rfl⟩

/-- C3 (amended): `copy()` returns a new Effect whose settings map equals
the original's, but the copy is shallow: a Shadow entry is the same
reference in both maps, so an in-place mutation of the (copy's = the
original's) Shadow object is observed identically through both Effects. -/
theorem effect_copy_equal_map_shared_shadow (e : EffectObj) :
    (Effect.copyObj e).fx = e.fx ∧
    (∀ addr, e.fx .shadow = some (.rShadowRef addr) →
      (Effect.copyObj e).fx .shadow = some (.rShadowRef addr)) ∧
    (∀ (h : Heap) (addr : ℕ) (v : ℚ) (sd : ShadowData),
      e.fx .shadow = some (.rShadowRef addr) →
      h[addr]? = some sd →
      EffectObj.shadowBlur (Heap.setBlur h addr v) (Effect.copyObj e) = some v ∧
      EffectObj.shadowBlur (Heap.setBlur h addr v) e = some v) := by
  refine ⟨rfl, fun addr ha => ha, fun h addr v sd ha hg => ?_⟩
  have hlen : addr < h.length := (List.getElem?_eq_some.mp hg).1
  have hv : (Heap.setBlur h addr v)[addr]? = some { sd with blur := v } := by
    simp only [Heap.setBlur, hg]
    exact List.getElem?_set_eq_of_lt _ hlen
  constructor <;> simp [EffectObj.shadowBlur, Effect.copyObj, ha, hv]

/-- C3 amended-theorem witness at the concrete Effect and heap above. -/
theorem effect_copy_equal_map_shared_shadow_witness :
    EffectObj.shadowBlur (Heap.setBlur heapW 0 99) (Effect.copyObj effW) = some 99 ∧
    EffectObj.shadowBlur (Heap.setBlur heapW 0 99) effW = some 99 :=
  (effect_copy_equal_map_shared_shadow effW).2.2 heapW 0 99 ⟨⟨0, 0, 0, 1⟩, 10, (5, -5)⟩
    rfl rfl

/-! ## Stencil construction and vector clipping -/

/-- An integer device-coordinate point (the clip-region semantics only
needs a point type with decidable structure). -/
abbrev Pt := ℤ × ℤ

/-- A closed path in device coordinates, abstracted by its winding-number
function: `winding p x` is the signed crossing count a ray from `x`
accumulates against the path.  The nonzero fill rule selects points with
nonzero winding; the even-odd rule selects points with odd crossing
parity. -/
structure PathW where
  winding : Pt → ℤ

/-- The image channel selectors used by `Stencil`/`_channelFilter`. -/
inductive Channel where
  | red | green | blue | alpha | black | white
  deriving DecidableEq

/-- A `Stencil.__init__` source: a Text (exposes `.path`), a Bezier
(copied), an Image (with or without an alpha channel), or any other
object. -/
inductive StencilSource where
  | textSrc (path : PathW)
  | bezierSrc (path : PathW)
  | imageSrc (hasAlpha : Bool)
  | otherSrc

/-- The attributes a `Stencil` instance ends up with: Python sets
`path`/`evenodd` for vector sources and `bmp`/`channel`/`invert` for
bitmap sources; an attribute that was never assigned is `none`
(`hasattr` false). -/
structure StencilData where
  path : Option PathW := none
  evenodd : Option Bool := none
  bmp : Option Bool := none
  channel : Option Channel := none
  invert : Option Bool := none

/-- `Stencil.__init__` (effects.py lines 418-436): Text/Bezier sources
store the path and use `invert` as the even-odd flag; Image sources
default the channel to alpha when available else to `black` (luminance)
and flip the invert sense for the `black` channel; any other source falls
through the `if`/`elif` chain — nothing is assigned and no error is
raised. -/
def Stencil.initData (stencil : StencilSource) (invert : Bool) (channel : Option Channel) :
    StencilData :=
  match stencil with
  | .textSrc p => { path := some p, evenodd := some invert }
  | .bezierSrc p => { path := some p, evenodd := some invert }
  | .imageSrc hasAlpha =>
      let ch := channel.getD (if hasAlpha then .alpha else .black)
      { bmp := some hasAlpha, channel := some ch,
        invert := some (if ch ≠ .black then invert else !invert) }
  | .otherSrc => {}

/-- C4: constructing a `Stencil` from a source that is neither a
path/text object nor a bitmap does *not* raise: the `if`/`elif` chain
falls through and produces an instance with neither `path` nor `bmp`
populated (`Stencil.initData` is total — there is no error path in the
constructor).  This contradicts the claimed synchronous
`InvalidStencilSource` error. -/
theorem stencil_init_other_falls_through :
    (Stencil.initData .otherSrc false none).path = none ∧
    (Stencil.initData .otherSrc false none).bmp = none ∧
    (Stencil.initData .otherSrc false none).evenodd = none ∧
    (Stencil.initData .otherSrc false none).channel = none ∧
    (Stencil.initData .otherSrc false none).invert = none :=
  ⟨rfl, rfl, rfl, rfl, rfl⟩

/-! ## Channel-isolation color matrices (`_channelFilter`) -/

/-- An RGBA pixel with rational components. -/
structure Pixel where
  r : ℚ
  g : ℚ
  b : ℚ
  a : ℚ
  deriving DecidableEq

/-- The five 4-vectors `(inputRVector, inputGVector, inputBVector,
inputAVector, inputBiasVector)` that `_channelFilter` builds
(effects.py lines 570-585).  The luminance (`black`/`white`) rows use the
literal coefficient `.333`. -/
def channelMatrix : Channel → List (ℚ × ℚ × ℚ × ℚ)
  | .alpha =>
      [(0, 0, 0, 1), (0, 0, 0, 1), (0, 0, 0, 1), (0, 0, 0, 0), (0, 0, 0, 1)]
  | .red =>
      [(1, 0, 0, 0), (1, 0, 0, 0), (1, 0, 0, 0), (0, 0, 0, 0), (0, 0, 0, 1)]
  | .green =>
      [(0, 1, 0, 0), (0, 1, 0, 0), (0, 1, 0, 0), (0, 0, 0, 0), (0, 0, 0, 1)]
  | .blue =>
      [(0, 0, 1, 0), (0, 0, 1, 0), (0, 0, 1, 0), (0, 0, 0, 0), (0, 0, 0, 1)]
  | .black =>
      [(333/1000, 333/1000, 333/1000, 0), (333/1000, 333/1000, 333/1000, 0),
       (333/1000, 333/1000, 333/1000, 0), (0, 0, 0, 0), (0, 0, 0, 1)]
  | .white =>
      [(333/1000, 333/1000, 333/1000, 0), (333/1000, 333/1000, 333/1000, 0),
       (333/1000, 333/1000, 333/1000, 0), (0, 0, 0, 0), (0, 0, 0, 1)]

/-- `dot(s, v)` of a pixel against a CIColorMatrix input vector. -/
def dotPx (px : Pixel) (v : ℚ × ℚ × ℚ × ℚ) : ℚ :=
  px.r * v.1 + px.g * v.2.1 + px.b * v.2.2.1 + px.a * v.2.2.2

/-- `CIColorMatrix` semantics (`_matrixFilter`, effects.py lines
597-606): each output component is the dot product of the input pixel
with the corresponding input vector, plus the bias vector. -/
def applyColorMatrix (m : List (ℚ × ℚ × ℚ × ℚ)) (px : Pixel) : Pixel :=
  match m with
  | [rv, gv, bv, av, bias] =>
      { r := dotPx px rv + bias.1,
        g := dotPx px gv + bias.2.1,
        b := dotPx px bv + bias.2.2.1,
        a := dotPx px av + bias.2.2.2 }
  | _ => px

/-- C6 counterexample: the luminance (`black`/`white`) color-matrix rows
use the literal coefficient `.333 = 333/1000`, which is *not* exactly
`1/3`: the claimed R-output row `(1/3, 1/3, 1/3, 0)` differs from the
code's row. -/
theorem channel_luminance_not_one_third :
    (channelMatrix .black).getD 0 (0, 0, 0, 0) ≠ ((1/3 : ℚ), (1/3 : ℚ), (1/3 : ℚ), (0 : ℚ)) := by
  intro h
  have : (333/1000 : ℚ) = 1/3 := congrArg (fun q => q.1) h
  norm_num at this

/-- C6 (amended): the luminance filter uses the equal weight `0.333`
(not a perceptual luma formula) for each of R, G, B in the three color
rows — `333/1000` exactly, not `1/3` — with alpha row `(0,0,0,0)` and
bias `(0,0,0,1)`; identically for `black` and `white`; consequently every
output pixel has R = G = B = `0.333·(r+g+b)` and is fully opaque. -/
theorem channel_luminance_weights :
    channelMatrix .black =
      [(333/1000, 333/1000, 333/1000, 0), (333/1000, 333/1000, 333/1000, 0),
       (333/1000, 333/1000, 333/1000, 0), (0, 0, 0, 0), (0, 0, 0, 1)] ∧
    channelMatrix .white = channelMatrix .black ∧
    (∀ px : Pixel,
      applyColorMatrix (channelMatrix .black) px =
        ⟨333/1000 * (px.r + px.g + px.b), 333/1000 * (px.r + px.g + px.b),
         333/1000 * (px.r + px.g + px.b), 1⟩) := by
  refine ⟨rfl, rfl, fun px => ?_⟩
  simp only [applyColorMatrix, channelMatrix, dotPx, Pixel.mk.injEq]
  refine ⟨by ring, by ring, by ring, by ring⟩

/-- Core Graphics calls issued by `Stencil.set` in vector mode. -/
inductive CGEv where
  | beginPath
  | addRect (w h : ℤ)
  | addPath (p : PathW)
  | clipNZ
  | clipEO

/-- `Stencil.set`, vector branch (effects.py lines 447-459): begin a
path; when `evenodd` (inverted) add the full-bounds rect
`((0,0),(WIDTH,HEIGHT))` plus the path and clip with the even-odd rule
(`CGContextEOClip`); otherwise add just the path and clip with the
nonzero rule (`CGContextClip`).  The path is already in device
coordinates (the screen transform applied by the code is outside this
model). -/
def Stencil.setTrace (p : PathW) (evenodd : Bool) (w h : ℤ) : List CGEv :=
  [CGEv.beginPath] ++
    (if evenodd then [CGEv.addRect w h, CGEv.addPath p, CGEv.clipEO]
     else [CGEv.addPath p, CGEv.clipNZ])

/-- Membership in the canvas bounds rect `((0,0),(w,h))`. -/
def inCanvas (w h : ℤ) (x : Pt) : Prop :=
  0 ≤ x.1 ∧ x.1 < w ∧ 0 ≤ x.2 ∧ x.2 < h

instance (w h : ℤ) (x : Pt) : Decidable (inCanvas w h x) := by
  unfold inCanvas; infer_instance

/-- Winding contribution of the axis-aligned canvas rect: 1 inside, 0
outside. -/
def rectWinding (w h : ℤ) (x : Pt) : ℤ := if inCanvas w h x then 1 else 0

/-- The canvas bounds as a point set. -/
def canvasRect (w h : ℤ) : Set Pt := {x | inCanvas w h x}

/-- Core Graphics path/clip semantics over the event trace: the current
path accumulates winding contributions; `CGContextClip` intersects the
clip with the nonzero-winding region, `CGContextEOClip` with the
odd-crossing-parity region (both reset the current path). -/
def runCGEvs : List CGEv → (Pt → ℤ) → Set Pt → Set Pt
  | [], _, clip => clip
  | .beginPath :: evs, _, clip => runCGEvs evs (fun _ => 0) clip
  | .addRect w h :: evs, acc, clip =>
      runCGEvs evs (fun x => acc x + rectWinding w h x) clip
  | .addPath p :: evs, acc, clip =>
      runCGEvs evs (fun x => acc x + p.winding x) clip
  | .clipNZ :: evs, acc, clip =>
      runCGEvs evs (fun _ => 0) (clip ∩ {x | acc x ≠ 0})
  | .clipEO :: evs, acc, clip =>
      runCGEvs evs (fun _ => 0) (clip ∩ {x | ¬ (2 ∣ acc x)})

/-- The clip region `Stencil(P, invert).set()` establishes on a `w × h`
canvas. -/
def clipRegion (w h : ℤ) (p : PathW) (evenodd : Bool) : Set Pt :=
  runCGEvs (Stencil.setTrace p evenodd w h) (fun _ => 0) Set.univ

/-- C7: for a vector stencil over path P on canvas bounds B:
`invert=False` clips to P's interior under the nonzero rule, and
`invert=True` clips to B minus P's interior, realized by adding the
full-bounds rect plus P and clipping even-odd.  The inverted identity is
stated for paths whose winding is 0/1-valued (where the nonzero and
even-odd interiors agree) and whose interior lies within the canvas. -/
theorem stencil_vector_invert (p : PathW) (w h : ℤ)
    (h01 : ∀ x, p.winding x = 0 ∨ p.winding x = 1)
    (hsub : ∀ x, p.winding x ≠ 0 → x ∈ canvasRect w h) :
    clipRegion w h p false = {x | p.winding x ≠ 0} ∧
    clipRegion w h p true = canvasRect w h \ {x | p.winding x ≠ 0} := by
  constructor
  · ext x
    simp [clipRegion, Stencil.setTrace, runCGEvs]
  · ext x
    simp only [clipRegion, Stencil.setTrace, List.cons_append, List.nil_append,
      if_true, runCGEvs, Set.mem_inter_iff, Set.mem_univ, true_and,
      Set.mem_setOf_eq, Set.mem_diff, canvasRect, rectWinding, zero_add]
    rcases h01 x with h0 | h1
    · by_cases hr : inCanvas w h x
      · simp [hr, h0]
      · simp [hr, h0]
    · have hin : inCanvas w h x := hsub x (by rw [h1]; norm_num)
      simp [hin, h1]

/-- A concrete path: winding 1 exactly at the point (1,1). -/
def pathW0 : PathW := ⟨fun x => if x = (1, 1) then 1 else 0⟩

/-- C7 witness: the two clip identities at a concrete path and a 3×3
canvas. -/
theorem stencil_vector_invert_witness :
    clipRegion 3 3 pathW0 false = {x | pathW0.winding x ≠ 0} ∧
    clipRegion 3 3 pathW0 true = canvasRect 3 3 \ {x | pathW0.winding x ≠ 0} := by
  refine stencil_vector_invert pathW0 3 3 ?_ ?_
  · intro x
    by_cases hx : x = (1, 1)
    · exact Or.inr (if_pos hx)
    · exact Or.inl (if_neg hx)
  · intro x hx
    by_cases hxe : x = (1, 1)
    · subst hxe
      show inCanvas 3 3 (1, 1)
      decide
    · exact (hx (if_neg hxe)).elim

/-! ## NUMBER Variables (`variables.py`) -/

/-- The state of a NUMBER `Variable`: `min`, `max`, optional `step`, and
the current `value`. -/
structure NumVar where
  min : ℚ
  max : ℚ
  step : Option ℚ
  value : ℚ
  deriving DecidableEq

/-- `DeviceError`s the NUMBER branch of `Variable.__init__` can raise. -/
inductive VarErr where
  | sliderRange
  | valueRange
  deriving DecidableEq

/-- Python 3 `round()` to an integer: round half to even. -/
def pyRoundHalfEven (q : ℚ) : ℤ :=
  if q - ⌊q⌋ < 1/2 then ⌊q⌋
  else if 1/2 < q - ⌊q⌋ then ⌊q⌋ + 1
  else if Even ⌊q⌋ then ⌊q⌋ else ⌊q⌋ + 1

/-- Python `round(x, 3)` (modelled on rationals). -/
def pyRound3 (q : ℚ) : ℚ := (pyRoundHalfEven (q * 1000) : ℚ) / 1000

/-- `min > max` is warned about and the bounds are swapped
(variables.py lines 80-83). -/
def swapRange (mn mx : ℚ) : ℚ × ℚ := if mn > mx then (mx, mn) else (mn, mx)

/-- The step-grid snap used at construction (variables.py lines 101-103):
align to the `min`-anchored grid, then clamp into `[min, max]`. -/
def stepAlign (mn mx s v : ℚ) : ℚ :=
  min mx (max mn (mn + s * ((⌊(v - mn + s / 2) / s⌋ : ℤ) : ℚ)))

/-- The value computed by the constructor before the final range check:
the grid snap runs only when `step` is truthy (not `None` and not 0). -/
def initValue (mn mx : ℚ) (st : Option ℚ) (v0 : ℚ) : ℚ :=
  match st with
  | some s => if s ≠ 0 then stepAlign mn mx s v0 else v0
  | none => v0

/-- `Variable.__init__`, NUMBER branch (variables.py lines 58-106):
min/max must be numbers within the `±1e6` slider bounds; an inverted
range is swapped; the value defaults to `min`; a truthy step snaps the
value to the min-anchored grid and clamps it; finally the constructor
raises unless `min ≤ value ≤ max`. -/
def numVarInit (mn mx : ℚ) (st v : Option ℚ) : Except VarErr NumVar :=
  if ¬(-1000000 ≤ mn ∧ mn ≤ 1000000) then .error .sliderRange
  else if ¬(-1000000 ≤ mx ∧ mx ≤ 1000000) then .error .sliderRange
  else
    if (swapRange mn mx).1 ≤ initValue (swapRange mn mx).1 (swapRange mn mx).2 st
          (v.getD (swapRange mn mx).1) ∧
        initValue (swapRange mn mx).1 (swapRange mn mx).2 st
          (v.getD (swapRange mn mx).1) ≤ (swapRange mn mx).2 then
      .ok ⟨(swapRange mn mx).1, (swapRange mn mx).2, st,
           initValue (swapRange mn mx).1 (swapRange mn mx).2 st
             (v.getD (swapRange mn mx).1)⟩
    else .error .valueRange

/-- `Variable.inherit`, NUMBER branch (variables.py lines 211-216): clamp
the old value into `[min, max]`, round to 3 decimals, and — when `step`
is truthy — snap to the *zero*-anchored step grid with **no** re-clamp. -/
def inheritValue (nv : NumVar) (old : ℚ) : ℚ :=
  match nv.step with
  | some s =>
      if s ≠ 0 then
        s * ((⌊(pyRound3 (max nv.min (min nv.max old)) + s / 2) / s⌋ : ℤ) : ℚ)
      else pyRound3 (max nv.min (min nv.max old))
  | none => pyRound3 (max nv.min (min nv.max old))

/-- `Variable.inherit` as a state transformer on the NUMBER variable. -/
def numInherit (nv : NumVar) (old : ℚ) : NumVar :=
  { nv with value := inheritValue nv old }

/-- C5 counterexample: a NUMBER Variable with `min=0, max=10, step=4`
(constructed successfully, value 0) inheriting an old value of 10 ends
with value 12: `inherit` snaps *after* clamping and never re-clamps, so
`value ≤ max` fails — refuting the claimed invariant after `inherit`. -/
theorem numvar_inherit_escapes_range_cex :
    numVarInit 0 10 (some 4) none = .ok ⟨0, 10, some 4, 0⟩ ∧
    (numInherit ⟨0, 10, some 4, 0⟩ 10).value = 12 ∧
    ¬((numInherit ⟨0, 10, some 4, 0⟩ 10).value ≤ (10 : ℚ)) := by
  refine ⟨?_, ?_, ?_⟩
  · norm_num [numVarInit, swapRange, initValue, stepAlign]
  · norm_num [numInherit, inheritValue, pyRound3, pyRoundHalfEven]
  · norm_num [numInherit, inheritValue, pyRound3, pyRoundHalfEven]

/-- C5 (amended): after construction the value always lies in
`[min, max]` (the constructor clamps a stepped value and otherwise raises
on an out-of-range value); after `inherit(old)` with a truthy step the
value is aligned to the zero-anchored step grid (`value = step·k`) but is
not re-clamped, so it can leave `[min, max]`; in the specific instance
`min=0, max=10, step=2` inheriting 7, the value ends at 8 (in range and
on the grid). -/
theorem numvar_construct_range_inherit_step :
    (∀ (mn mx : ℚ) (st v : Option ℚ) (nv : NumVar),
      numVarInit mn mx st v = .ok nv → nv.min ≤ nv.value ∧ nv.value ≤ nv.max) ∧
    (∀ (nv : NumVar) (s : ℚ), nv.step = some s → s ≠ 0 →
      ∀ old : ℚ, ∃ k : ℤ, (numInherit nv old).value = s * k) ∧
    (numInherit ⟨0, 10, some 2, 0⟩ 7).value = 8 := by
  refine ⟨?_, ?_, ?_⟩
  · intro mn mx st v nv h
    unfold numVarInit at h
    split at h
    · exact absurd h (by simp)
    · split at h
      · exact absurd h (by simp)
      · split at h
        · rename_i hrange
          cases h
          exact ⟨hrange.1, hrange.2⟩
        · exact absurd h (by simp)
  · intro nv s hst hs old
    refine ⟨⌊(pyRound3 (max nv.min (min nv.max old)) + s / 2) / s⌋, ?_⟩
    simp [numInherit, inheritValue, hst, hs]
  · norm_num [numInherit, inheritValue, pyRound3, pyRoundHalfEven]

/-- C5 amended-theorem witness: the concrete variable `min=0, max=10,
step=2` is in range after construction, and inheriting 7 lands on the
step grid. -/
theorem numvar_construct_range_inherit_step_witness :
    ((0 : ℚ) ≤ 0 ∧ (0 : ℚ) ≤ 10) ∧
    ∃ k : ℤ, (numInherit ⟨0, 10, some 2, 0⟩ 7).value = 2 * k := by
  have h := numvar_construct_range_inherit_step
  constructor
  · exact h.1 0 10 (some 2) none ⟨0, 10, some 2, 0⟩
      (by norm_num [numVarInit, swapRange, initValue, stepAlign])
  · exact h.2.1 ⟨0, 10, some 2, 0⟩ 2 rfl (by norm_num) 7

end PlotDevice
